import Mathlib

/-!
Verification development for the nssm multi-source crawler and
incremental ingestion pipeline.

Shallow embedding conventions:
* timestamps are seconds since an arbitrary epoch (`Nat`); Python
  `datetime` subtraction followed by `int(x / d)` truncation towards zero
  agrees with `Nat` subtraction and division on the non-negative inputs
  the theorems quantify over;
* Python `None` is `Option.none`; a fallible step returns `Option`/`Except`;
* the JSON state file of `src/market/state_management.py` is a record;
  dictionary key lookup is association-list lookup;
* strings are ASCII for the purposes of the regex helpers (Python `\w`
  also accepts non-ASCII word characters; no claim exercises those).
-/

set_option autoImplicit false
set_option maxRecDepth 10000

namespace NSSM

/-! ## state_management.py (`NewsStateManager`) -/

/-- Per-source entry of the news state, mirroring the dictionaries stored
under `sources` in `cache/news_state.json` (src/market/state_management.py,
`_create_default_state`). -/
structure SourceState where
  last_fetch_ts : Option Nat
  total_fetches : Nat
  last_backfill_ts : Option Nat
deriving DecidableEq

/-- The whole state dictionary: `version`, `last_updated` (an ISO string,
kept opaque) and the per-source table. -/
structure NewsState where
  version : String
  last_updated : String
  sources : List (String × SourceState)
deriving DecidableEq

/-- Embedding of `NewsStateManager._create_default_state`
(src/market/state_management.py lines 58-90): five named sources, each with
no fetch or backfill watermark and a zero fetch counter.  `now_str` stands
for `datetime.now(self.oslo_tz).isoformat()`. -/
def create_default_state (now_str : String) : NewsState :=
  { version := "1.0"
    last_updated := now_str
    sources :=
      [ ("openbb", ⟨none, 0, none⟩)
      , ("oslobors", ⟨none, 0, none⟩)
      , ("nasdaq_sto", ⟨none, 0, none⟩)
      , ("nasdaq_cph", ⟨none, 0, none⟩)
      , ("nasdaq_hex", ⟨none, 0, none⟩) ] }

/-- The possible outcomes of opening and JSON-decoding the state file in
`NewsStateManager.load_state`: the file does not exist, the read raises,
the JSON decode raises, or a state is obtained (with the per-source
timestamp-conversion pass of lines 39-51 already applied to the payload,
which no claim exercises). -/
inductive FileOutcome where
  | missing
  | io_error
  | invalid_json
  | ok (st : NewsState)
deriving DecidableEq

/-- Embedding of `NewsStateManager.load_state`
(src/market/state_management.py lines 30-56).  A missing file returns the
default state (line 32-33); the `except Exception` branch (lines 54-56)
turns an unreadable or syntactically invalid file into the default state
as well, so the function is total and never raises. -/
def load_state (outcome : FileOutcome) (now_str : String) : NewsState :=
  match outcome with
  | .missing => create_default_state now_str
  | .io_error => create_default_state now_str
  | .invalid_json => create_default_state now_str
  | .ok st => st

/-- Embedding of `NewsStateManager.get_last_fetch_timestamp` applied to an
already-loaded state: `state.get("sources", {}).get(source, {}).get("last_fetch_ts")`
(src/market/state_management.py lines 117-121). -/
def get_last_fetch_timestamp (st : NewsState) (source : String) : Option Nat :=
  match st.sources.lookup source with
  | none => none
  | some ss => ss.last_fetch_ts

/-- Embedding of `NewsStateManager.get_last_backfill_timestamp`
(src/market/state_management.py lines 157-161). -/
def get_last_backfill_timestamp (st : NewsState) (source : String) : Option Nat :=
  match st.sources.lookup source with
  | none => none
  | some ss => ss.last_backfill_ts

/-- Result dictionary of `get_incremental_fetch_params`: `days_back`,
`is_incremental`, and the `last_fetch` key that is present in the two
prior-fetch branches and absent in the first-time branch. -/
structure FetchParams where
  days_back : Nat
  is_incremental : Bool
  last_fetch : Option Nat
deriving DecidableEq

/-- Embedding of `NewsStateManager.get_incremental_fetch_params`
(src/market/state_management.py lines 184-214) over a loaded state.
`now` stands for `datetime.now(self.oslo_tz)`; `time_since_last_fetch`
is `now - last_fetch` and `int(secs / (24*3600))` is `Nat` division for
the non-negative spans the claims quantify over. -/
def get_incremental_fetch_params (st : NewsState) (source : String)
    (default_days_back : Nat) (now : Nat) : FetchParams :=
  match get_last_fetch_timestamp st source with
  | none => ⟨default_days_back, false, none⟩
  | some lf =>
    let elapsed := now - lf
    if 48 * 3600 < elapsed then
      ⟨min (elapsed / (24 * 3600)) 30, false, some lf⟩
    else
      ⟨max 1 (elapsed / (24 * 3600)), true, some lf⟩

/-! ## db/models.py: the `posts` row, and the scraper metadata bag -/

/-- Values of the JSON metadata dictionaries the scrapers attach to posts. -/
inductive MetaValue where
  | s (v : String)
  | n (v : Nat)
  | b (v : Bool)
  | strs (v : List String)
  | null
deriving DecidableEq

/-- A `Post` ORM object (src/db/models.py lines 40-76 plus the scraper-set
attributes).  `post_id`, `forum_id`, `ticker`, `url`, `thread_url` can be
Python `None`; `content` models the plain instance attribute of that name
read and written by `ScraperPersistence.upsert_posts` — the `posts` table
has no such column and no scraper sets it, so on scraper-built posts it is
`none` (absent), and reading it raises `AttributeError`. -/
structure PostRow where
  post_id : Option String
  forum_id : Option Nat
  ticker : Option String
  timestamp : Nat
  author : String
  raw_text : String
  clean_text : String
  url : Option String
  thread_url : Option String
  content : Option String
  metadata : List (String × MetaValue)
deriving DecidableEq

/-! ## Regex helpers shared by the parser embeddings

`re` patterns are embedded by their ASCII semantics: `[A-Z]` is an
uppercase ASCII letter, `\b` is a boundary between a word character
(alphanumeric or underscore) and a non-word character or string edge. -/

/-- Uppercase ASCII letter, the character class `[A-Z]`. -/
def is_upper_az (c : Char) : Bool := 'A' ≤ c && c ≤ 'Z'

/-- Python `str.upper()` on ASCII text, character by character. -/
def upper_ascii (s : String) : String := String.mk (s.toList.map Char.toUpper)

/-- Word character for `\b`: ASCII alphanumeric or underscore. -/
def is_word_char (c : Char) : Bool := c.isAlphanum || c = '_'

/-- Maximal runs of word characters of a string, in order.  A match of
`\b[A-Z]{m,n}\b` is exactly a whole such run that consists of uppercase
letters and whose length lies in `[m, n]` (a shorter sub-run is rejected
because the inner position is not a word boundary). -/
def word_runs (cs : List Char) : List (List Char) :=
  let p := cs.foldr
    (fun c q =>
      if is_word_char c then (c :: q.1, q.2)
      else ([], if q.1.isEmpty then q.2 else q.1 :: q.2))
    (([] : List Char), ([] : List (List Char)))
  if p.1.isEmpty then p.2 else p.1 :: p.2

/-- Embedding of `self.ticker_pattern.findall(text)` for the Placera
pattern `\b[A-Z]{2,4}\b` (src/scraper/avanza.py line 49). -/
def ticker_pattern_findall (s : String) : List String :=
  ((word_runs s.toList).filter
    (fun r => r.all is_upper_az && decide (2 ≤ r.length) && decide (r.length ≤ 4))).map
    (fun r => String.mk r)

/-- The `common_words` stopword set of `PlaceraScraper._extract_tickers`
(src/scraper/avanza.py lines 312-326). -/
def placera_common_words : List String :=
  ["THE", "AND", "FOR", "ARE", "YOU", "ALL", "HER", "HIS", "ITS", "OUR",
   "VAR", "OCH", "ATT"]

/-- The candidate list of `_extract_tickers` before de-duplication:
`findall` over the uppercased text, then the stopword filter
(src/scraper/avanza.py lines 309-327). -/
def placera_ticker_candidates (text : String) : List String :=
  (ticker_pattern_findall (upper_ascii text)).filter
    (fun t => !placera_common_words.contains t)

/-- Embedding of `PlaceraScraper._extract_tickers`
(src/scraper/avanza.py lines 299-337): candidates de-duplicated while
preserving first-seen order. -/
def extract_tickers (text : String) : List String :=
  (placera_ticker_candidates text).foldl
    (fun acc t => if acc.contains t then acc else acc ++ [t]) []

/-- Modelled from the spec, for comparison only: the ticker body scan as
claim C6 states it — uppercase tokens of length 2-6 taken from the body
as written (not uppercased first), the same stopword filter, the same
de-duplication. -/
def claim_ticker_scan_2_6 (text : String) : List String :=
  ((((word_runs text.toList).filter
      (fun r => r.all is_upper_az && decide (2 ≤ r.length) && decide (r.length ≤ 6))).map
      (fun r => String.mk r)).filter
    (fun t => !placera_common_words.contains t)).foldl
    (fun acc t => if acc.contains t then acc else acc ++ [t]) []

/-! ## avanza.py (`PlaceraScraper`) -/

/-- A Placera post container as seen by `_extract_post`: the stripped text
of the element selected by each selector (`none` when `select_one` finds
nothing), and the container's class list. -/
structure AvanzaContainer where
  author_elem : Option String
  ticker_elem : Option String
  title_elem : Option String
  timestamp_elem : Option String
  content_elem : Option String
  container_class : List String
deriving DecidableEq

/-- Embedding of `PlaceraScraper._extract_post`
(src/scraper/avanza.py lines 227-297).  `parse_ts` abstracts
`_parse_timestamp`'s strptime format list; its failure and a missing
timestamp element both yield `now` (`datetime.now()`).  An absent or
empty content element skips the record; an absent or empty destination
label triggers the body scan, and an empty scan skips the record.
`post_id` is the literal `None` of line 285. -/
def placera_extract_post (parse_ts : String → Option Nat) (now : Nat)
    (c : AvanzaContainer) : Option PostRow :=
  let author := c.author_elem.getD "Unknown"
  let ticker := c.ticker_elem
  let title := c.title_elem.getD "No title"
  let timestamp : Nat :=
    match c.timestamp_elem with
    | none => now
    | some s => (parse_ts s).getD now
  match c.content_elem with
  | none => none
  | some raw_text =>
    if raw_text = "" then none
    else
      let mk : String → Option PostRow := fun tk =>
        some
          { post_id := none
            forum_id := none
            ticker := some tk
            timestamp := timestamp
            author := if author = "" then "Anonymous" else author
            raw_text := raw_text
            clean_text := raw_text
            url := none
            thread_url := none
            content := none
            metadata :=
              [("source", .s "placera_forum"), ("title", .s title),
               ("container_class", .strs c.container_class)] }
      if ticker.getD "" = "" then
        match extract_tickers raw_text with
        | [] => none
        | t :: _ => mk t
      else mk (ticker.getD "")

/-- Embedding of `PlaceraScraper._fetch_with_requests`
(src/scraper/avanza.py lines 91-118): a robots-disallowed URL returns
`None` before any network call; otherwise the outcome of the GET is
returned (`none` for a raised request error). -/
def fetch_with_requests (robots_allowed : Bool) (response_text : Option String) :
    Option String :=
  if robots_allowed then response_text else none

/-- Embedding of `PlaceraScraper.fetch` (src/scraper/avanza.py lines
67-89).  `requests_html` is the `_fetch_with_requests` outcome,
`selenium_html` the outcome `_fetch_with_selenium` would produce, and
`needs_js` is `_needs_javascript_fallback`.  The second component records
whether the Selenium fallback was invoked. -/
def placera_fetch (needs_js : String → Bool) (requests_html selenium_html : Option String) :
    Option String × Bool :=
  match requests_html with
  | none => (none, false)
  | some h =>
    if h ≠ "" ∧ needs_js h = true then (selenium_html, true) else (some h, false)

/-! ## hegnar.py (`HegnarScraper`) -/

/-- Hexadecimal digit value, as accepted by `urllib.parse.unquote`. -/
def hex_val (c : Char) : Option Nat :=
  if '0' ≤ c ∧ c ≤ '9' then some (c.toNat - 48)
  else if 'a' ≤ c ∧ c ≤ 'f' then some (c.toNat - 87)
  else if 'A' ≤ c ∧ c ≤ 'F' then some (c.toNat - 55)
  else none

/-- Embedding of `urllib.parse.unquote` on ASCII data: every `%XX` escape
with two hex digits becomes the byte's character, anything else is copied
through (multi-byte UTF-8 escapes are outside the ASCII model). -/
def unquote_chars : List Char → List Char
  | [] => []
  | '%' :: c1 :: c2 :: rest =>
    match hex_val c1, hex_val c2 with
    | some h1, some h2 => Char.ofNat (16 * h1 + h2) :: unquote_chars rest
    | _, _ => '%' :: unquote_chars (c1 :: c2 :: rest)
  | c :: rest => c :: unquote_chars rest

/-- String wrapper for `unquote_chars`. -/
def unquote (s : String) : String := String.mk (unquote_chars s.toList)

/-- Leftmost match of `re.search(r"/forum/ticker/([^/?]+)", href)`: the
first position where the literal path marker is followed by at least one
character other than `/` and `?`; the group is the maximal such run. -/
def ticker_path_group : List Char → Option (List Char)
  | [] => none
  | c :: rest =>
    if ("/forum/ticker/".toList).isPrefixOf (c :: rest) then
      let grp := ((c :: rest).drop 14).takeWhile (fun ch => ch ≠ '/' && ch ≠ '?')
      if grp.isEmpty then ticker_path_group rest else some grp
    else ticker_path_group rest

/-- String wrapper for `ticker_path_group`. -/
def search_ticker_href (href : String) : Option String :=
  (ticker_path_group href.toList).map String.mk

/-- Leftmost match of `re.search(r"([A-Z]{3,6})", s)`: the first position
starting a run of at least three uppercase letters; the greedy group takes
up to six of them. -/
def search_upper_3_6 : List Char → Option (List Char)
  | [] => none
  | c :: rest =>
    let run := (c :: rest).takeWhile is_upper_az
    if 3 ≤ run.length then some (run.take 6) else search_upper_3_6 rest

/-- String wrapper for `search_upper_3_6`. -/
def search_upper_run_3_6 (s : String) : Option String :=
  (search_upper_3_6 s.toList).map String.mk

/-- Modelled from the spec, for comparison only: the per-record symbol
pattern as claim C4 states it, an uppercase 2-6 letter match. -/
def claim_upper_run_2_6 (s : String) : Option String :=
  (go s.toList).map String.mk
where
  go : List Char → Option (List Char)
    | [] => none
    | c :: rest =>
      let run := (c :: rest).takeWhile is_upper_az
      if 2 ≤ run.length then some (run.take 6) else go rest

/-- Removal of every occurrence of `"post_"`, as
`container.get("id", "").replace("post_", "")` does
(src/scraper/hegnar.py line 247).  The fuel argument starts at the input
length; each step consumes at least one character, so the list is
processed completely. -/
def strip_post_marker_aux : Nat → List Char → List Char
  | 0, cs => cs
  | _ + 1, [] => []
  | fuel + 1, c :: rest =>
    if ("post_".toList).isPrefixOf (c :: rest) then
      strip_post_marker_aux fuel ((c :: rest).drop 5)
    else c :: strip_post_marker_aux fuel rest

/-- String wrapper for `strip_post_marker_aux`. -/
def replace_post_marker (s : String) : String :=
  String.mk (strip_post_marker_aux s.toList.length s.toList)

/-- Python whitespace as stripped by `str.strip()`. -/
def is_py_space (c : Char) : Bool :=
  c = ' ' || c = '\t' || c = '\n' || c = '\x0d' || c = '\x0b' || c = '\x0c'

/-- Embedding of `str.strip()` on ASCII text. -/
def strip_ascii (s : String) : String :=
  String.mk (((s.toList.dropWhile is_py_space).reverse.dropWhile is_py_space).reverse)

/-- A Finansavisen post container (`div` with id `post_<n>`) as seen by
`_parse_post_container`: the id attribute, the stripped text of the first
author link, the href of the first ticker link (if any), the text of the
first date-bearing span, the children of the content div as
(is-blockquote, text) pairs (`none` when the content div is missing), and
the `data-post-level` attribute. -/
structure HegnarContainer where
  id_attr : String
  author_elem : Option String
  ticker_href : Option String
  time_elem : Option String
  content_children : Option (List (Bool × String))
  data_post_level : Option String
deriving DecidableEq

/-- The per-record ticker tag resolution of `_parse_post_container`
(src/scraper/hegnar.py lines 256-271): take the first ticker link's href,
extract the path group, URL-decode it, and match the uppercase 3-6 letter
pattern. -/
def post_ticker_tag (c : HegnarContainer) : Option String :=
  match c.ticker_href with
  | none => none
  | some href =>
    match search_ticker_href href with
    | none => none
    | some raw => search_upper_run_3_6 (unquote raw)

/-- Embedding of `HegnarScraper._parse_post_container`
(src/scraper/hegnar.py lines 243-340).  `parse_ts` abstracts the
Norwegian date parsing; a missing time element or a parse failure yields
`now`.  Blockquote children are skipped when building the content text;
a stripped content shorter than 10 characters skips the record. -/
def parse_post_container (c : HegnarContainer) (thread_ticker : Option String)
    (thr_url : Option String) (thread_id : Option String)
    (parse_ts : String → Option Nat) (now : Nat) : Option PostRow :=
  let post_id := replace_post_marker c.id_attr
  if post_id = "" then none
  else
    let author := c.author_elem.getD "Unknown"
    let ticker : Option String :=
      match post_ticker_tag c with
      | some t => some t
      | none => thread_ticker
    let timestamp : Nat :=
      match c.time_elem with
      | none => now
      | some s => (parse_ts s).getD now
    match c.content_children with
    | none => none
    | some children =>
      let content_text := strip_ascii (String.mk
        (children.foldl (fun a x => if x.1 then a else a ++ x.2.toList) []))
      if content_text = "" ∨ content_text.length < 10 then none
      else
        some
          { post_id := some post_id
            forum_id := none
            ticker := ticker
            timestamp := timestamp
            author := author
            raw_text := content_text
            clean_text := content_text
            url := some ("https://www.finansavisen.no/forum/post/" ++ post_id)
            thread_url := thr_url
            content := none
            metadata :=
              [("source", .s "individual_post"),
               ("content_length", .n content_text.length),
               ("has_ticker", .b ticker.isSome),
               ("post_level", .s (c.data_post_level.getD "0")),
               ("thread_id", match thread_id with | some s => .s s | none => .null),
               ("ticker_source", .s
                 (if ticker.getD "" ≠ "" ∧ ticker ≠ thread_ticker then "post_specific"
                  else "thread_level"))] }

/-! ## scraper/persistence.py (`ScraperPersistence.upsert_posts`)

The session store is the list of rows the queries see (SQLAlchemy
autoflush makes pending adds visible to later lookups in the same call).
SQL equality treats NULL as unequal to everything, including NULL.
Committing enforces the `posts` schema of src/db/models.py: `post_id`
and `forum_id` NOT NULL and `post_id` table-wide UNIQUE; a violation
raises, the transaction is rolled back and `upsert_posts` re-raises
(lines 110-114). -/

/-- SQL equality on nullable values: NULL compares false against
everything. -/
def sql_eq {α : Type} [DecidableEq α] (a b : Option α) : Bool :=
  match a, b with
  | some x, some y => decide (x = y)
  | _, _ => false

/-- The natural identity key used by the lookup:
`(Post.post_id, Post.forum_id)`. -/
def key_of (r : PostRow) : Option String × Option Nat := (r.post_id, r.forum_id)

/-- SQL equality of identity keys. -/
def pair_sql_eq (k1 k2 : Option String × Option Nat) : Bool :=
  sql_eq k1.1 k2.1 && sql_eq k1.2 k2.2

/-- The `filter` of the existing-post lookup (src/scraper/persistence.py
lines 77-83). -/
def key_match (r p : PostRow) : Bool := pair_sql_eq (key_of r) (key_of p)

/-- The update branch of `upsert_posts` (lines 85-91): it copies
`content`, `timestamp`, `ticker` and `metadata` from the incoming post.
Its first statement reads `post.content`; `Post` objects built by the
scrapers have no `content` attribute (`none` here), so the read raises
`AttributeError`, the surrounding per-post handler logs and continues,
and nothing is assigned — modelled as `none`. -/
def update_post_fields (existing incoming : PostRow) : Option PostRow :=
  match incoming.content with
  | none => none
  | some c =>
    some { existing with
            content := some c
            timestamp := incoming.timestamp
            ticker := incoming.ticker
            metadata := incoming.metadata }

/-- Processing of one post against the session store (lines 74-100): the
first row matching the identity key is updated (or left as is when the
update raises); with no match the post is added at the end and counted
as inserted. -/
def upsert_one (post : PostRow) : List PostRow → List PostRow × Bool
  | [] => ([post], true)
  | r :: rest =>
    if key_match r post then
      match update_post_fields r post with
      | some r' => (r' :: rest, false)
      | none => (r :: rest, false)
    else
      let z := upsert_one post rest
      (r :: z.1, z.2)

/-- The per-post loop of `upsert_posts`, returning the session store and
`inserted_count`. -/
def upsert_loop : List PostRow → List PostRow → List PostRow × Nat
  | [], store => (store, 0)
  | p :: ps, store =>
    let s := upsert_one p store
    let z := upsert_loop ps s.1
    (z.1, (if s.2 then 1 else 0) + z.2)

/-- The `posts` table constraints from src/db/models.py lines 45-49:
`post_id` NOT NULL and UNIQUE across the whole table, `forum_id`
NOT NULL (the remaining NOT NULL columns are non-optional fields of
`PostRow` and hold by construction). -/
def posts_table_ok (store : List PostRow) : Bool :=
  store.all (fun r => r.post_id.isSome && r.forum_id.isSome) &&
    decide (store.map (fun r => r.post_id)).Nodup

/-- Embedding of `ScraperPersistence.upsert_posts`
(src/scraper/persistence.py lines 65-117) with an internally created
session: an empty batch returns 0 before touching the session; otherwise
the loop runs and the commit either persists the final store or raises on
a schema violation (`Except.error`), rolling the transaction back. -/
def upsert_posts (posts : List PostRow) (store : List PostRow) :
    Except Unit (Nat × List PostRow) :=
  match posts with
  | [] => .ok (0, store)
  | p :: ps =>
    let s := upsert_loop (p :: ps) store
    if posts_table_ok s.1 then .ok (s.2, s.1) else .error ()

/-! ## market/news_openbb.py (`OpenBBNewsFetcher._upsert_news_item`)

A `news` row (src/db/models.py lines 124-153) and an incoming news-item
dictionary.  The dictionary is modelled as a record of optional fields:
`none` means the key is absent from the dictionary, mirroring the generic
`for key, value in news_item.items()` loop that touches exactly the
carried keys. -/

/-- A row of the `news` table. -/
structure NewsRow where
  ticker : String
  source : String
  category : String
  headline : String
  summary : Option String
  body_html : Option String
  link : Option String
  published_at : Nat
  importance : Option ℚ
deriving DecidableEq

/-- An incoming news-item dictionary; an outer `none` marks an absent
key. -/
structure NewsItem where
  ticker : Option String
  source : Option String
  category : Option String
  headline : Option String
  summary : Option (Option String)
  body_html : Option (Option String)
  link : Option (Option String)
  published_at : Option Nat
  importance : Option (Option ℚ)
deriving DecidableEq

/-- One field of the dictionary loop of `_upsert_news_item`
(src/market/news_openbb.py lines 137-141): an absent key leaves the
column untouched; a carried value is compared with `getattr` and assigned
only when it differs. -/
def upd_field {α : Type} [DecidableEq α] (cur : α) (inc : Option α) : α :=
  match inc with
  | none => cur
  | some v => if v = cur then cur else v

/-- Whether the dictionary loop marks this field as updated. -/
def field_changed {α : Type} [DecidableEq α] (cur : α) (inc : Option α) : Bool :=
  match inc with
  | none => false
  | some v => decide (¬ v = cur)

/-- The whole dictionary loop over an existing row: every carried and
differing field is assigned, everything else is kept; the flag is the
`updated` boolean returned to the caller. -/
def update_news_fields (ex : NewsRow) (item : NewsItem) : NewsRow × Bool :=
  ({ ticker := upd_field ex.ticker item.ticker
     source := upd_field ex.source item.source
     category := upd_field ex.category item.category
     headline := upd_field ex.headline item.headline
     summary := upd_field ex.summary item.summary
     body_html := upd_field ex.body_html item.body_html
     link := upd_field ex.link item.link
     published_at := upd_field ex.published_at item.published_at
     importance := upd_field ex.importance item.importance },
   field_changed ex.ticker item.ticker || field_changed ex.source item.source ||
     field_changed ex.category item.category ||
     field_changed ex.headline item.headline ||
     field_changed ex.summary item.summary ||
     field_changed ex.body_html item.body_html ||
     field_changed ex.link item.link ||
     field_changed ex.published_at item.published_at ||
     field_changed ex.importance item.importance)

/-- The `where` clause of the existing-item lookup
(src/market/news_openbb.py lines 127-133). -/
def news_match3 (t h : String) (pa : Nat) (r : NewsRow) : Bool :=
  decide (r.ticker = t) && decide (r.headline = h) && decide (r.published_at = pa)

/-- Updating the unique matching row in place, walking the store in
order. -/
def news_replace_first (item : NewsItem) (t h : String) (pa : Nat) :
    List NewsRow → Bool × List NewsRow
  | [] => (false, [])
  | r :: rest =>
    if news_match3 t h pa r then
      let u := update_news_fields r item
      (u.2, u.1 :: rest)
    else
      let z := news_replace_first item t h pa rest
      (z.1, r :: z.2)

/-- Embedding of `OpenBBNewsFetcher._upsert_news_item`
(src/market/news_openbb.py lines 123-162).  A missing lookup key
(`KeyError`), more than one match (`MultipleResultsFound`), a NOT NULL
violation on insert (missing `source`) or a unique-constraint hit all
take an exception branch that rolls back and returns `false`; exactly one
match is updated field by field; no match inserts the row, with the
column defaults `category="news"` and `importance=0.5` applied. -/
def upsert_news_item (item : NewsItem) (rows : List NewsRow) :
    Bool × List NewsRow :=
  match item.ticker, item.headline, item.published_at with
  | some t, some h, some pa =>
    match rows.countP (news_match3 t h pa) with
    | 0 =>
      match item.source with
      | none => (false, rows)
      | some src =>
        let row : NewsRow :=
          { ticker := t
            source := src
            category := item.category.getD "news"
            headline := h
            summary := item.summary.getD none
            body_html := item.body_html.getD none
            link := item.link.getD none
            published_at := pa
            importance := item.importance.getD (some (1 / 2 : ℚ)) }
        if rows.any (fun r => decide (r.ticker = t) && decide (r.source = src) &&
            decide (r.headline = h) && decide (r.published_at = pa))
        then (false, rows)
        else (true, rows ++ [row])
    | 1 => news_replace_first item t h pa rows
    | _ + 2 => (false, rows)
  | _, _, _ => (false, rows)

/-! ## hegnar.py (`HegnarScraper.scrape_forum_with_threads`) batching -/

/-- The date filter applied to each scraped thread
(src/scraper/hegnar.py lines 444-447): keep posts whose timestamp is at
or after the cutoff. -/
def filter_recent (cutoff : Nat) (posts : List PostRow) : List PostRow :=
  posts.filter (fun p => decide (cutoff ≤ p.timestamp))

/-- One invocation of the batch callback: the flushed posts, the number
of threads accumulated in the batch, and whether this was the final
remainder flush. -/
structure BatchFlush where
  posts : List PostRow
  threads : Nat
  is_final : Bool
deriving DecidableEq

/-- The loop state of `scrape_forum_with_threads`: `batch_posts`,
`threads_in_current_batch`, `all_posts`, and the trace of callback
invocations. -/
structure BatchLoopState where
  batch_posts : List PostRow
  threads_in_batch : Nat
  all_posts : List PostRow
  flushes : List BatchFlush
deriving DecidableEq

/-- One iteration of the thread loop (src/scraper/hegnar.py lines
435-472): the thread's date-filtered posts extend the pending batch and
the total; with a callback present, the batch is flushed and reset
exactly when the pending post count reaches `batch_size_posts` or the
batch's thread count reaches `batch_size_threads`. -/
def process_thread (has_cb : Bool) (size_posts size_threads cutoff : Nat)
    (st : BatchLoopState) (thread_posts : List PostRow) : BatchLoopState :=
  let filtered := filter_recent cutoff thread_posts
  let batch := st.batch_posts ++ filtered
  let thr := st.threads_in_batch + 1
  let all := st.all_posts ++ filtered
  let should_store :=
    has_cb && (decide (size_posts ≤ batch.length) || decide (size_threads ≤ thr))
  if should_store then ⟨[], 0, all, st.flushes ++ [⟨batch, thr, false⟩]⟩
  else ⟨batch, thr, all, st.flushes⟩

/-- The thread loop over the (already truncated) thread list. -/
def scrape_loop (has_cb : Bool) (size_posts size_threads cutoff : Nat)
    (threads : List (List PostRow)) : BatchLoopState :=
  threads.foldl (process_thread has_cb size_posts size_threads cutoff) ⟨[], 0, [], []⟩

/-- Embedding of `HegnarScraper.scrape_forum_with_threads`
(src/scraper/hegnar.py lines 375-482) from the thread list on: the loop
runs over `thread_ids[:max_threads]` and a final flush stores any
non-empty remainder when a callback is present (lines 474-479). -/
def scrape_forum_with_threads (has_cb : Bool)
    (size_posts size_threads cutoff max_threads : Nat)
    (threads : List (List PostRow)) : BatchLoopState :=
  let st := scrape_loop has_cb size_posts size_threads cutoff (threads.take max_threads)
  if has_cb && !st.batch_posts.isEmpty then
    { st with flushes := st.flushes ++ [⟨st.batch_posts, st.threads_in_batch, true⟩] }
  else st

end NSSM

namespace NSSM

/-- C1: fetch-window computation.  With no recorded fetch the default
non-incremental window is returned; with a prior fetch whose elapsed time
exceeds 48 hours the window is `min (elapsed in days) 30`, non-incremental;
otherwise the window is `max 1 (elapsed in days)`, incremental.  A fetch
10 minutes old gives an incremental 1-day window; a fetch exactly 72 hours
old gives a non-incremental window of 3 days, within the 30-day cap. -/
theorem get_incremental_fetch_params_spec
    (st : NewsState) (source : String) (d now lf : Nat) :
    (get_last_fetch_timestamp st source = none →
      get_incremental_fetch_params st source d now = ⟨d, false, none⟩) ∧
    (get_last_fetch_timestamp st source = some lf → lf ≤ now →
      (48 * 3600 < now - lf →
        get_incremental_fetch_params st source d now =
          ⟨min ((now - lf) / (24 * 3600)) 30, false, some lf⟩) ∧
      (now - lf ≤ 48 * 3600 →
        get_incremental_fetch_params st source d now =
          ⟨max 1 ((now - lf) / (24 * 3600)), true, some lf⟩) ∧
      (now - lf = 600 →
        get_incremental_fetch_params st source d now = ⟨1, true, some lf⟩) ∧
      (now - lf = 72 * 3600 →
        (get_incremental_fetch_params st source d now).is_incremental = false ∧
        (get_incremental_fetch_params st source d now).days_back = 3 ∧
        (get_incremental_fetch_params st source d now).days_back ≤ 30)) := by
  constructor
  · intro h
    simp [get_incremental_fetch_params, h]
  · intro h _
    refine ⟨?_, ?_, ?_, ?_⟩
    · intro hgt
      simp [get_incremental_fetch_params, h, hgt]
    · intro hle
      have : ¬ 48 * 3600 < now - lf := by omega
      simp [get_incremental_fetch_params, h, this]
    · intro h600
      have : ¬ 48 * 3600 < now - lf := by omega
      simp [get_incremental_fetch_params, h, this, h600]
    · intro h72
      have hgt : 48 * 3600 < now - lf := by omega
      refine ⟨?_, ?_, ?_⟩ <;> simp [get_incremental_fetch_params, h, hgt, h72]

/-- Witness for `get_incremental_fetch_params_spec` at a concrete state:
source "openbb" last fetched at 1000, queried at 1600 (10 minutes later). -/
theorem get_incremental_fetch_params_spec_witness :
    get_incremental_fetch_params
      ⟨"1.0", "t", [("openbb", ⟨some 1000, 3, none⟩)]⟩ "openbb" 1 1600 =
      ⟨1, true, some 1000⟩ :=
  ((get_incremental_fetch_params_spec
      ⟨"1.0", "t", [("openbb", ⟨some 1000, 3, none⟩)]⟩ "openbb" 1 1600 1000).2
    (by decide) (by decide)).2.2.1 (by decide)

/-- C9: a missing, unreadable, or syntactically invalid state file makes
`load_state` return the default state, in which every source's fetch and
backfill watermarks are `none` and every fetch counter is zero; hence
`get_incremental_fetch_params` for every source yields the non-incremental
default window, and whatever the corrupt file held is discarded. -/
theorem load_state_failure_defaults (now_str source : String) (d now : Nat) :
    load_state .missing now_str = create_default_state now_str ∧
    load_state .io_error now_str = create_default_state now_str ∧
    load_state .invalid_json now_str = create_default_state now_str ∧
    ((create_default_state now_str).sources.all
      (fun p => p.2.last_fetch_ts.isNone && p.2.last_backfill_ts.isNone &&
        decide (p.2.total_fetches = 0))) = true ∧
    get_last_fetch_timestamp (load_state .missing now_str) source = none ∧
    get_last_backfill_timestamp (load_state .missing now_str) source = none ∧
    get_incremental_fetch_params (load_state .missing now_str) source d now =
      ⟨d, false, none⟩ ∧
    get_incremental_fetch_params (load_state .io_error now_str) source d now =
      ⟨d, false, none⟩ ∧
    get_incremental_fetch_params (load_state .invalid_json now_str) source d now =
      ⟨d, false, none⟩ := by
  have hlookup : ∀ ss : Option SourceState,
      (create_default_state now_str).sources.lookup source = ss →
      ss = none ∨ ss = some ⟨none, 0, none⟩ := by
    intro ss h
    simp only [create_default_state, List.lookup] at h
    repeat' split at h
    all_goals simp_all
  have hfetch : get_last_fetch_timestamp (create_default_state now_str) source = none := by
    unfold get_last_fetch_timestamp
    rcases hlookup _ rfl with h | h <;> rw [h]
  have hback : get_last_backfill_timestamp (create_default_state now_str) source = none := by
    unfold get_last_backfill_timestamp
    rcases hlookup _ rfl with h | h <;> rw [h]
  refine ⟨rfl, rfl, rfl, rfl, hfetch, hback, ?_, ?_, ?_⟩ <;>
    simp [load_state, get_incremental_fetch_params, hfetch]

/-- C3: a well-formed Placera post container (author "Alice", title
"Hello", body "TSLA to the moon") parses to a post whose `post_id` is
`None` — `_extract_post` hard-codes `post_id=None` — although the `posts`
table declares `post_id` NOT NULL and the spec requires a deterministic
derived key when no external id exists.  Such a post can never satisfy
the schema. -/
theorem placera_post_id_null_bug :
    placera_extract_post (fun _ => none) 0
      ⟨some "Alice", none, some "Hello", none, some "TSLA to the moon", ["post-card"]⟩ =
      some
        { post_id := none
          forum_id := none
          ticker := some "TSLA"
          timestamp := 0
          author := "Alice"
          raw_text := "TSLA to the moon"
          clean_text := "TSLA to the moon"
          url := none
          thread_url := none
          content := none
          metadata :=
            [("source", .s "placera_forum"), ("title", .s "Hello"),
             ("container_class", .strs ["post-card"])] } ∧
    (placera_extract_post (fun _ => none) 0
      ⟨some "Alice", none, some "Hello", none, some "TSLA to the moon", ["post-card"]⟩).map
        (fun p => p.post_id.isSome) = some false := by
  constructor <;> rfl

/-- C5: no browser fallback after a network failure.  When the requests
attempt yields no document, `fetch` returns `none` and the Selenium
fallback is not invoked; conversely, whenever the fallback is invoked the
HTTP fetch had returned a non-empty document on which the render-required
heuristic holds. -/
theorem placera_fetch_no_browser_on_network_failure :
    (∀ (needs_js : String → Bool) (selenium_html : Option String),
       placera_fetch needs_js none selenium_html = (none, false)) ∧
    (∀ (needs_js : String → Bool) (requests_html selenium_html : Option String),
       (placera_fetch needs_js requests_html selenium_html).2 = true →
       ∃ h, requests_html = some h ∧ h ≠ "" ∧ needs_js h = true ∧
         placera_fetch needs_js requests_html selenium_html = (selenium_html, true)) := by
  refine ⟨fun _ _ => rfl, ?_⟩
  intro njs req sel h2
  cases req with
  | none => simp [placera_fetch] at h2
  | some h =>
    by_cases hc : h ≠ "" ∧ njs h = true
    · exact ⟨h, rfl, hc.1, hc.2, by simp [placera_fetch, hc]⟩
    · simp [placera_fetch, hc] at h2

/-- Witness for `placera_fetch_no_browser_on_network_failure` at concrete
documents and a heuristic that always demands rendering. -/
theorem placera_fetch_no_browser_on_network_failure_witness :
    placera_fetch (fun _ => true) none (some "rendered") = (none, false) ∧
    ∃ h, (some "doc" : Option String) = some h ∧ h ≠ "" ∧ (fun _ => true) h = true ∧
      placera_fetch (fun _ => true) (some "doc") (some "rendered") =
        (some "rendered", true) :=
  ⟨placera_fetch_no_browser_on_network_failure.1 (fun _ => true) (some "rendered"),
   placera_fetch_no_browser_on_network_failure.2 (fun _ => true) (some "doc")
     (some "rendered") (by decide)⟩

/-- Helper: the de-duplication fold of `_extract_tickers` keeps the head
of a non-empty accumulator. -/
theorem foldl_dedup_head (l : List String) (a : String) (as : List String) :
    (l.foldl (fun acc t => if acc.contains t then acc else acc ++ [t]) (a :: as)).head? =
      some a := by
  induction l generalizing as with
  | nil => rfl
  | cons t ts ih =>
    rw [List.foldl_cons]
    by_cases h : (a :: as).contains t = true
    · rw [if_pos h]; exact ih as
    · rw [if_neg h, List.cons_append]; exact ih (as ++ [t])

/-- Helper: the de-duplication fold preserves `Nodup`. -/
theorem foldl_dedup_nodup (l acc : List String) (hacc : acc.Nodup) :
    (l.foldl (fun acc t => if acc.contains t then acc else acc ++ [t]) acc).Nodup := by
  induction l generalizing acc with
  | nil => exact hacc
  | cons t ts ih =>
    rw [List.foldl_cons]
    by_cases h : acc.contains t = true
    · rw [if_pos h]; exact ih acc hacc
    · rw [if_neg h]
      have ht : t ∉ acc := fun hm => h (List.elem_eq_true_of_mem hm)
      exact ih (acc ++ [t]) (by simp [List.nodup_append, hacc, ht])

/-- Helper: membership after the de-duplication fold. -/
theorem foldl_dedup_mem (l acc : List String) (x : String) :
    x ∈ l.foldl (fun acc t => if acc.contains t then acc else acc ++ [t]) acc ↔
      x ∈ acc ∨ x ∈ l := by
  induction l generalizing acc with
  | nil => simp
  | cons t ts ih =>
    rw [List.foldl_cons]
    by_cases h : acc.contains t = true
    · have ht : t ∈ acc := List.mem_of_elem_eq_true h
      rw [if_pos h, ih acc]
      constructor
      · rintro (hx | hx)
        · exact Or.inl hx
        · exact Or.inr (List.mem_cons_of_mem _ hx)
      · rintro (hx | hx)
        · exact Or.inl hx
        · rcases List.mem_cons.mp hx with he | hm
          · exact Or.inl (he ▸ ht)
          · exact Or.inr hm
    · rw [if_neg h, ih (acc ++ [t])]
      constructor
      · rintro (hx | hx)
        · rcases List.mem_append.mp hx with h1 | h1
          · exact Or.inl h1
          · exact Or.inr (List.mem_cons.mpr (Or.inl (List.mem_singleton.mp h1)))
        · exact Or.inr (List.mem_cons_of_mem _ hx)
      · rintro (hx | hx)
        · exact Or.inl (List.mem_append.mpr (Or.inl hx))
        · rcases List.mem_cons.mp hx with he | hm
          · exact Or.inl (List.mem_append.mpr (Or.inr (by simp [he])))
          · exact Or.inr hm

/-- C6 (amended): with no per-record ticker tag, the record's ticker is
the first candidate of the body scan and the record is skipped when no
candidate survives; the scan uppercases the body and collects word-runs
of 2-4 uppercase letters, drops stopwords, and de-duplicates preserving
first-seen order; body "THE AND TSLA" resolves to "TSLA". -/
theorem placera_body_scan_tickers :
    (∀ (parse_ts : String → Option Nat) (now : Nat) (c : AvanzaContainer) (raw : String),
        c.ticker_elem = none → c.content_elem = some raw → raw ≠ "" →
        (extract_tickers raw = [] → placera_extract_post parse_ts now c = none) ∧
        (∀ t ts, extract_tickers raw = t :: ts →
          (placera_extract_post parse_ts now c).map (fun p => p.ticker) =
            some (some t))) ∧
    (∀ text, (extract_tickers text).head? = (placera_ticker_candidates text).head?) ∧
    (∀ text, (extract_tickers text).Nodup) ∧
    (∀ text t, t ∈ extract_tickers text ↔ t ∈ placera_ticker_candidates text) ∧
    (∀ text t, t ∈ placera_ticker_candidates text →
        2 ≤ t.length ∧ t.length ≤ 4 ∧ t.toList.all is_upper_az = true ∧
        t ∉ placera_common_words) ∧
    (placera_extract_post (fun _ => none) 0
        ⟨some "Bob", none, none, none, some "THE AND TSLA", []⟩).map (fun p => p.ticker) =
      some (some "TSLA") := by
  refine ⟨?_, ?_, ?_, ?_, ?_, rfl⟩
  · intro parse_ts now c raw htick hcont hraw
    obtain ⟨ae, te, tie, tse, ce, cc⟩ := c
    simp only at htick hcont
    subst htick; subst hcont
    constructor
    · intro hout
      simp [placera_extract_post, hraw, hout]
    · intro t ts hout
      simp [placera_extract_post, hraw, hout]
  · intro text
    simp only [extract_tickers]
    cases h : placera_ticker_candidates text with
    | nil => rfl
    | cons a as => exact foldl_dedup_head as a []
  · intro text
    exact foldl_dedup_nodup _ [] List.nodup_nil
  · intro text t
    have h := foldl_dedup_mem (placera_ticker_candidates text) [] t
    simp only [extract_tickers]
    simpa using h
  · intro text t ht
    simp only [placera_ticker_candidates, List.mem_filter, ticker_pattern_findall,
      List.mem_map] at ht
    obtain ⟨⟨r, hr, rfl⟩, hstop⟩ := ht
    have hp := hr.2
    simp only [Bool.and_eq_true, decide_eq_true_eq] at hp
    have hlen : (String.mk r).length = r.length := rfl
    have hlist : (String.mk r).toList = r := rfl
    refine ⟨?_, ?_, ?_, ?_⟩
    · rw [hlen]; exact hp.1.2
    · rw [hlen]; exact hp.2
    · rw [hlist]; exact hp.1.1
    · intro hm
      have hc : placera_common_words.contains (String.mk r) = true :=
        List.elem_eq_true_of_mem hm
      simp only [hc] at hstop
      exact absurd hstop (by decide)

/-- Witness for `placera_body_scan_tickers`: a container with no ticker
tag and body "THE AND TSLA" resolves to ticker "TSLA". -/
theorem placera_body_scan_tickers_witness :
    (placera_extract_post (fun _ => none) 0
        ⟨some "W", none, none, none, some "THE AND TSLA", []⟩).map (fun p => p.ticker) =
      some (some "TSLA") :=
  (placera_body_scan_tickers.1 (fun _ => none) 0
      ⟨some "W", none, none, none, some "THE AND TSLA", []⟩ "THE AND TSLA"
      rfl rfl (by decide)).2 "TSLA" [] rfl

/-- Helper: a successful uppercase 3-6 match has length between 3 and 6
and consists of uppercase letters. -/
theorem search_upper_3_6_chars_spec (cs : List Char) (r : List Char)
    (h : search_upper_3_6 cs = some r) :
    3 ≤ r.length ∧ r.length ≤ 6 ∧ r.all is_upper_az = true := by
  induction cs with
  | nil => simp [search_upper_3_6] at h
  | cons c rest ih =>
    simp only [search_upper_3_6] at h
    by_cases hl : 3 ≤ ((c :: rest).takeWhile is_upper_az).length
    · rw [if_pos hl] at h
      have hr : r = ((c :: rest).takeWhile is_upper_az).take 6 :=
        (Option.some.inj h).symm
      subst hr
      refine ⟨?_, ?_, ?_⟩
      · rw [List.length_take]; omega
      · rw [List.length_take]; omega
      · rw [List.all_eq_true]
        intro x hx
        exact List.mem_takeWhile_imp (List.mem_of_mem_take hx)
    · rw [if_neg hl] at h
      exact ih h

/-- C4 (amended): a per-record ticker tag that decodes to an uppercase
3-6 letter symbol wins over any thread-level hint; the thread-level hint
is used exactly when no per-record tag resolves; a post-level tag "AKER"
with thread hint "EQNR" resolves to "AKER". -/
theorem hegnar_ticker_precedence :
    (∀ (c : HegnarContainer) (tt thr_url tid : Option String)
        (parse_ts : String → Option Nat) (now : Nat) (t : String) (p : PostRow),
        post_ticker_tag c = some t →
        parse_post_container c tt thr_url tid parse_ts now = some p →
        p.ticker = some t) ∧
    (∀ (c : HegnarContainer) (tt thr_url tid : Option String)
        (parse_ts : String → Option Nat) (now : Nat) (p : PostRow),
        post_ticker_tag c = none →
        parse_post_container c tt thr_url tid parse_ts now = some p →
        p.ticker = tt) ∧
    (∀ (s t : String), search_upper_run_3_6 s = some t →
        3 ≤ t.length ∧ t.length ≤ 6 ∧ t.toList.all is_upper_az = true) ∧
    ((parse_post_container
        ⟨"post_7", some "ola",
         some "https://www.finansavisen.no/forum/ticker/AKER", none,
         some [(false, "AKER will rally hard")], none⟩
        (some "EQNR") none none (fun _ => none) 0).map (fun p => p.ticker) =
      some (some "AKER")) := by
  refine ⟨?_, ?_, ?_, rfl⟩
  · intro c tt thr_url tid parse_ts now t p h hp
    simp only [parse_post_container, h] at hp
    split at hp
    · exact absurd hp (by simp)
    · split at hp
      · exact absurd hp (by simp)
      · split at hp
        · exact absurd hp (by simp)
        · injection hp with h2
          subst h2
          rfl
  · intro c tt thr_url tid parse_ts now p h hp
    simp only [parse_post_container, h] at hp
    split at hp
    · exact absurd hp (by simp)
    · split at hp
      · exact absurd hp (by simp)
      · split at hp
        · exact absurd hp (by simp)
        · injection hp with h2
          subst h2
          rfl
  · intro s t h
    simp only [search_upper_run_3_6] at h
    cases hm : search_upper_3_6 s.toList with
    | none => rw [hm] at h; exact absurd h (by simp)
    | some r =>
      rw [hm] at h
      have ht : t = String.mk r := (Option.some.inj h).symm
      subst ht
      exact search_upper_3_6_chars_spec s.toList r hm

/-- Witness for `hegnar_ticker_precedence`: the AKER-tagged container with
thread hint EQNR resolves to AKER. -/
theorem hegnar_ticker_precedence_witness :
    post_ticker_tag
        ⟨"post_7", some "ola", some "https://www.finansavisen.no/forum/ticker/AKER",
         none, some [(false, "AKER will rally hard")], none⟩ = some "AKER" ∧
    PostRow.ticker
        { post_id := some "7", forum_id := none, ticker := some "AKER", timestamp := 0,
          author := "ola", raw_text := "AKER will rally hard",
          clean_text := "AKER will rally hard",
          url := some "https://www.finansavisen.no/forum/post/7", thread_url := none,
          content := none,
          metadata :=
            [("source", .s "individual_post"), ("content_length", .n 20),
             ("has_ticker", .b true), ("post_level", .s "0"), ("thread_id", .null),
             ("ticker_source", .s "post_specific")] } = some "AKER" :=
  ⟨rfl,
   hegnar_ticker_precedence.1
     ⟨"post_7", some "ola", some "https://www.finansavisen.no/forum/ticker/AKER",
      none, some [(false, "AKER will rally hard")], none⟩
     (some "EQNR") none none (fun _ => none) 0 "AKER"
     { post_id := some "7", forum_id := none, ticker := some "AKER", timestamp := 0,
       author := "ola", raw_text := "AKER will rally hard",
       clean_text := "AKER will rally hard",
       url := some "https://www.finansavisen.no/forum/post/7", thread_url := none,
       content := none,
       metadata :=
         [("source", .s "individual_post"), ("content_length", .n 20),
          ("has_ticker", .b true), ("post_level", .s "0"), ("thread_id", .null),
          ("ticker_source", .s "post_specific")] }
     rfl rfl⟩

/-- C4 counterexample: the per-record pattern is 3-6 letters, not 2-6.  A
two-letter tag "AB" matches the claimed 2-6 pattern, but the code finds no
3-6 letter symbol in it and falls back to the thread hint "EQNR". -/
theorem hegnar_two_letter_tag_cex :
    claim_upper_run_2_6 (unquote "AB") = some "AB" ∧
    post_ticker_tag
        ⟨"post_1", some "ola", some "/forum/ticker/AB", none,
         some [(false, "0123456789abc")], none⟩ = none ∧
    (parse_post_container
        ⟨"post_1", some "ola", some "/forum/ticker/AB", none,
         some [(false, "0123456789abc")], none⟩
        (some "EQNR") none none (fun _ => none) 0).map (fun p => p.ticker) =
      some (some "EQNR") :=
  ⟨rfl, rfl, rfl⟩

/-- Helper: `all` of a negated predicate is the negated `any`. -/
theorem all_bnot_eq_bnot_any {α : Type} (l : List α) (f : α → Bool) :
    l.all (fun x => !f x) = !(l.any f) := by
  induction l with
  | nil => rfl
  | cons a t ih => simp [List.all_cons, List.any_cons, ih, Bool.not_or]

/-- Helper: `all` over a mapped list. -/
theorem all_map_gen {α β : Type} (f : α → β) (q : β → Bool) (l : List α) :
    (l.map f).all q = l.all (fun x => q (f x)) := by
  induction l with
  | nil => rfl
  | cons a t ih => simp [List.map_cons, List.all_cons, ih]

/-- Helper: `any` over a mapped list. -/
theorem any_map_gen {α β : Type} (f : α → β) (q : β → Bool) (l : List α) :
    (l.map f).any q = l.any (fun x => q (f x)) := by
  induction l with
  | nil => rfl
  | cons a t ih => simp [List.map_cons, List.any_cons, ih]

/-- Helper: the key-miss test only depends on the key list of the store. -/
theorem all_not_key_match_eq (l : List PostRow) (p : PostRow) :
    l.all (fun r => !key_match r p) =
      (l.map key_of).all (fun k => !pair_sql_eq k (key_of p)) := by
  rw [all_map_gen]; rfl

/-- Helper: the key-hit test only depends on the key list of the store. -/
theorem any_key_match_eq (l : List PostRow) (p : PostRow) :
    l.any (fun r => key_match r p) =
      (l.map key_of).any (fun k => pair_sql_eq k (key_of p)) := by
  rw [any_map_gen]; rfl

/-- Helper: the update branch preserves the row's identity key. -/
theorem update_post_fields_key (r p r' : PostRow)
    (h : update_post_fields r p = some r') : key_of r' = key_of r := by
  cases hc : p.content with
  | none => rw [update_post_fields, hc] at h; exact absurd h (by simp)
  | some c =>
    rw [update_post_fields, hc] at h
    have := Option.some.inj h
    subst this
    rfl

/-- Helper: `upsert_one` inserts exactly on a key miss, and appends the
post's key to the store's key list in that case. -/
theorem upsert_one_spec (p : PostRow) (store : List PostRow) :
    (upsert_one p store).2 = store.all (fun r => !key_match r p) ∧
    (upsert_one p store).1.map key_of =
      store.map key_of ++
        (if store.all (fun r => !key_match r p) then [key_of p] else []) := by
  induction store with
  | nil => exact ⟨rfl, rfl⟩
  | cons r rest ih =>
    by_cases h : key_match r p = true
    · have hall : (r :: rest).all (fun x => !key_match x p) = false := by
        simp [List.all_cons, h]
      rw [hall]
      constructor
      · show (upsert_one p (r :: rest)).2 = false
        rw [upsert_one, if_pos h]
        cases hu : update_post_fields r p <;> simp [hu]
      · show (upsert_one p (r :: rest)).1.map key_of = _
        rw [upsert_one, if_pos h]
        cases hu : update_post_fields r p with
        | none => simp
        | some r' => simp [update_post_fields_key r p r' hu]
    · have hb : key_match r p = false := by
        cases hk : key_match r p
        · rfl
        · exact absurd hk h
      have hall : (r :: rest).all (fun x => !key_match x p) =
          rest.all (fun x => !key_match x p) := by
        simp [List.all_cons, hb]
      rw [hall]
      constructor
      · show (upsert_one p (r :: rest)).2 = _
        rw [upsert_one, if_neg h]
        exact ih.1
      · show (upsert_one p (r :: rest)).1.map key_of = _
        rw [upsert_one, if_neg h]
        show key_of r :: (upsert_one p rest).1.map key_of = _
        rw [ih.2]
        simp

/-- Helper: the loop only appends keys to the store. -/
theorem upsert_loop_keys (posts store : List PostRow) :
    ∃ ext, (upsert_loop posts store).1.map key_of = store.map key_of ++ ext := by
  induction posts generalizing store with
  | nil => exact ⟨[], by simp [upsert_loop]⟩
  | cons p ps ih =>
    obtain ⟨ext, hext⟩ := ih (upsert_one p store).1
    refine ⟨(if store.all (fun r => !key_match r p) then [key_of p] else []) ++ ext, ?_⟩
    show (upsert_loop ps (upsert_one p store).1).1.map key_of = _
    rw [hext, (upsert_one_spec p store).2, List.append_assoc]

/-- Helper: with pairwise SQL-distinct keys in the batch, the loop's
inserted count is the number of batch posts whose key misses the initial
store. -/
theorem upsert_loop_count (posts : List PostRow) (store : List PostRow)
    (hdist : posts.Pairwise (fun p q => pair_sql_eq (key_of p) (key_of q) = false)) :
    (upsert_loop posts store).2 =
      (posts.filter (fun p => store.all (fun r => !key_match r p))).length := by
  induction posts generalizing store with
  | nil => rfl
  | cons p ps ih =>
    have hpair := (List.pairwise_cons.mp hdist).1
    have htail := (List.pairwise_cons.mp hdist).2
    have hcong : ps.filter (fun q => (upsert_one p store).1.all (fun r => !key_match r q)) =
        ps.filter (fun q => store.all (fun r => !key_match r q)) := by
      apply List.filter_congr
      intro q hq
      rw [all_not_key_match_eq, all_not_key_match_eq, (upsert_one_spec p store).2,
        List.all_append]
      have : (if store.all (fun r => !key_match r p) then [key_of p] else []).all
          (fun k => !pair_sql_eq k (key_of q)) = true := by
        split
        · simp [hpair q hq]
        · rfl
      rw [this, Bool.and_true]
    show (if (upsert_one p store).2 then 1 else 0) + (upsert_loop ps (upsert_one p store).1).2 = _
    rw [ih _ htail, hcong, (upsert_one_spec p store).1]
    by_cases h : store.all (fun r => !key_match r p) = true
    · simp [List.filter_cons, h, Nat.add_comm]
    · simp [List.filter_cons, h]

/-- Helper: after the loop, every batch post's key has a SQL-equal or
syntactically equal witness in the final key list. -/
theorem upsert_loop_covers (posts store : List PostRow) :
    ∀ p ∈ posts, ∃ k ∈ (upsert_loop posts store).1.map key_of,
      k = key_of p ∨ pair_sql_eq k (key_of p) = true := by
  induction posts generalizing store with
  | nil => intro p hp; exact absurd hp (List.not_mem_nil p)
  | cons q qs ih =>
    intro p hp
    rcases List.mem_cons.mp hp with rfl | hmem
    · -- the head post itself
      obtain ⟨ext, hext⟩ := upsert_loop_keys qs (upsert_one p store).1
      by_cases h : store.all (fun r => !key_match r p) = true
      · refine ⟨key_of p, ?_, Or.inl rfl⟩
        show key_of p ∈ (upsert_loop qs (upsert_one p store).1).1.map key_of
        rw [hext, (upsert_one_spec p store).2, if_pos h]
        simp
      · have hb : store.all (fun r => !key_match r p) = false := by
          cases hk : store.all (fun r => !key_match r p)
          · rfl
          · exact absurd hk h
        have hany : store.any (fun r => key_match r p) = true := by
          have := all_bnot_eq_bnot_any store (fun r => key_match r p)
          rw [hb] at this
          cases hk : store.any (fun r => key_match r p)
          · rw [hk] at this; exact absurd this.symm (by decide)
          · rfl
        obtain ⟨r, hr, hkm⟩ := List.any_eq_true.mp hany
        refine ⟨key_of r, ?_, Or.inr hkm⟩
        show key_of r ∈ (upsert_loop qs (upsert_one p store).1).1.map key_of
        rw [hext, (upsert_one_spec p store).2]
        have : key_of r ∈ store.map key_of := List.mem_map_of_mem key_of hr
        simp [this]
    · exact ih (upsert_one q store).1 p hmem

/-- Helper: when every batch post already has a key hit in the store, the
loop inserts nothing and preserves the key list. -/
theorem upsert_loop_no_new (posts store : List PostRow)
    (hall : ∀ p ∈ posts, store.any (fun r => key_match r p) = true) :
    (upsert_loop posts store).2 = 0 ∧
    (upsert_loop posts store).1.map key_of = store.map key_of := by
  induction posts generalizing store with
  | nil => exact ⟨rfl, rfl⟩
  | cons p ps ih =>
    have hhit := hall p (List.mem_cons_self p ps)
    have hmiss : store.all (fun r => !key_match r p) = false := by
      rw [all_bnot_eq_bnot_any, hhit]
      rfl
    have hkeys : (upsert_one p store).1.map key_of = store.map key_of := by
      rw [(upsert_one_spec p store).2, hmiss]
      simp
    have hall' : ∀ q ∈ ps, (upsert_one p store).1.any (fun r => key_match r q) = true := by
      intro q hq
      rw [any_key_match_eq, hkeys, ← any_key_match_eq]
      exact hall q (List.mem_cons_of_mem p hq)
    have := ih (upsert_one p store).1 hall'
    constructor
    · show (if (upsert_one p store).2 then 1 else 0) + (upsert_loop ps (upsert_one p store).1).2 = 0
      rw [(upsert_one_spec p store).1, hmiss, this.1]
      simp
    · show (upsert_loop ps (upsert_one p store).1).1.map key_of = _
      rw [this.2, hkeys]

/-- Helper: the schema check only depends on the key list of the store. -/
theorem posts_table_ok_of_keys (s1 s2 : List PostRow)
    (h : s1.map key_of = s2.map key_of) : posts_table_ok s1 = posts_table_ok s2 := by
  have hform : ∀ s : List PostRow,
      posts_table_ok s = ((s.map key_of).all (fun k => k.1.isSome && k.2.isSome) &&
        decide ((s.map key_of).map Prod.fst).Nodup) := by
    intro s
    rw [posts_table_ok, all_map_gen, List.map_map]
    rfl
  rw [hform, hform, h]

/-- Helper: a post whose `content` attribute is absent and whose key hits
the store is skipped: the store is unchanged and nothing is counted. -/
theorem upsert_one_skip (p : PostRow) (store : List PostRow)
    (hc : p.content = none) (hm : store.any (fun r => key_match r p) = true) :
    upsert_one p store = (store, false) := by
  induction store with
  | nil => exact absurd hm (by simp)
  | cons r rest ih =>
    rw [List.any_cons] at hm
    by_cases h : key_match r p = true
    · have hu : update_post_fields r p = none := by rw [update_post_fields, hc]
      rw [upsert_one, if_pos h, hu]
    · have hb : key_match r p = false := by
        cases hk : key_match r p
        · rfl
        · exact absurd hk h
      rw [hb, Bool.false_or] at hm
      simp [upsert_one, h, ih hm]

/-- Helper: the dictionary-loop field update equals `getD`: a carried
value is taken over (also when it equals the current one), an absent key
keeps the current value. -/
theorem upd_field_getD {α : Type} [DecidableEq α] (cur : α) (inc : Option α) :
    upd_field cur inc = inc.getD cur := by
  cases inc with
  | none => rfl
  | some v =>
    show (if v = cur then cur else v) = v
    by_cases h : v = cur
    · rw [if_pos h, h]
    · rw [if_neg h]

/-- Helper: updating the single matching row walks past the non-matching
prefix untouched. -/
theorem news_replace_first_app (item : NewsItem) (t h : String) (pa : Nat)
    (pre rest : List NewsRow) (r : NewsRow)
    (hpre : pre.countP (news_match3 t h pa) = 0) (hr : news_match3 t h pa r = true) :
    news_replace_first item t h pa (pre ++ r :: rest) =
      ((update_news_fields r item).2, pre ++ (update_news_fields r item).1 :: rest) := by
  induction pre with
  | nil =>
    simp only [List.nil_append]
    rw [news_replace_first, if_pos hr]
  | cons a pres ih =>
    have ha : news_match3 t h pa a = false := by
      cases hk : news_match3 t h pa a
      · rfl
      · rw [List.countP_cons, hk] at hpre
        simp at hpre
    have hpre' : pres.countP (news_match3 t h pa) = 0 := by
      rw [List.countP_cons, ha] at hpre
      simpa using hpre
    simp only [List.cons_append, news_replace_first]
    rw [if_neg (by simp [ha])]
    simp [ih hpre']

/-- C2 (amended): with SQL-distinct keys in the batch, `upsert_posts`
returns the number of posts whose key misses the store; re-running over
the unchanged list after a successful run returns 0; a post whose key
already exists never contributes to the count — its update step raises on
the missing `content` attribute and is skipped, leaving the store row
unchanged. -/
theorem upsert_posts_count_idempotent :
    (∀ (posts store : List PostRow) (n : Nat) (st' : List PostRow),
        posts.Pairwise (fun p q => pair_sql_eq (key_of p) (key_of q) = false) →
        upsert_posts posts store = .ok (n, st') →
        n = (posts.filter (fun p => store.all (fun r => !key_match r p))).length) ∧
    (∀ (posts store : List PostRow) (n : Nat) (st' : List PostRow),
        upsert_posts posts store = .ok (n, st') →
        ∃ st'', upsert_posts posts st' = .ok (0, st'')) ∧
    (∀ (p : PostRow) (store : List PostRow),
        p.content = none → store.any (fun r => key_match r p) = true →
        upsert_one p store = (store, false)) := by
  refine ⟨?_, ?_, upsert_one_skip⟩
  · intro posts store n st' hdist hok
    cases posts with
    | nil =>
      simp only [upsert_posts, Except.ok.injEq, Prod.mk.injEq] at hok
      rw [← hok.1]
      rfl
    | cons p ps =>
      simp only [upsert_posts] at hok
      by_cases htab : posts_table_ok (upsert_loop (p :: ps) store).1 = true
      · rw [if_pos htab] at hok
        simp only [Except.ok.injEq, Prod.mk.injEq] at hok
        rw [← hok.1]
        exact upsert_loop_count (p :: ps) store hdist
      · rw [if_neg htab] at hok
        exact Except.noConfusion hok
  · intro posts store n st' hok
    cases posts with
    | nil =>
      simp only [upsert_posts, Except.ok.injEq, Prod.mk.injEq] at hok
      exact ⟨store, by rw [← hok.2]; rfl⟩
    | cons p ps =>
      simp only [upsert_posts] at hok
      by_cases htab : posts_table_ok (upsert_loop (p :: ps) store).1 = true
      · rw [if_pos htab] at hok
        simp only [Except.ok.injEq, Prod.mk.injEq] at hok
        obtain ⟨-, h2⟩ := hok
        subst h2
        have hall : ∀ q ∈ p :: ps,
            ((upsert_loop (p :: ps) store).1.any (fun r => key_match r q)) = true := by
          intro q hq
          obtain ⟨k, hk, hcase⟩ := upsert_loop_covers (p :: ps) store q hq
          rw [any_key_match_eq]
          apply List.any_eq_true.mpr
          rcases hcase with rfl | heq
          · refine ⟨key_of q, hk, ?_⟩
            obtain ⟨r, hr, hkr⟩ := List.mem_map.mp hk
            rw [posts_table_ok] at htab
            simp only [Bool.and_eq_true] at htab
            have hrow : r.post_id.isSome = true ∧ r.forum_id.isSome = true := by
              have := List.all_eq_true.mp htab.1 r hr
              simpa using this
            obtain ⟨x, hx⟩ := Option.isSome_iff_exists.mp hrow.1
            obtain ⟨y, hy⟩ := Option.isSome_iff_exists.mp hrow.2
            rw [← hkr]
            simp [pair_sql_eq, key_of, sql_eq, hx, hy]
          · exact ⟨k, hk, heq⟩
        have hnn := upsert_loop_no_new (p :: ps) _ hall
        refine ⟨(upsert_loop (p :: ps) (upsert_loop (p :: ps) store).1).1, ?_⟩
        have htab2 : posts_table_ok
            (upsert_loop (p :: ps) (upsert_loop (p :: ps) store).1).1 = true := by
          rw [posts_table_ok_of_keys _ _ hnn.2]
          exact htab
        simp only [upsert_posts]
        rw [if_pos htab2, hnn.1]
      · rw [if_neg htab] at hok
        exact Except.noConfusion hok

/-- Witness for `upsert_posts_count_idempotent`: one fresh post into an
empty store counts 1; re-running over the stored batch returns 0; a
key-hitting post with no `content` attribute is skipped. -/
theorem upsert_posts_count_idempotent_witness :
    (1 = (([{ post_id := some "q", forum_id := some 1, ticker := none, timestamp := 0,
              author := "a", raw_text := "t", clean_text := "t", url := none,
              thread_url := none, content := none, metadata := [] }] : List PostRow).filter
            (fun p => ([] : List PostRow).all (fun r => !key_match r p))).length) ∧
    (∃ st'', upsert_posts
        [{ post_id := some "q", forum_id := some 1, ticker := none, timestamp := 0,
           author := "a", raw_text := "t", clean_text := "t", url := none,
           thread_url := none, content := none, metadata := [] }]
        [{ post_id := some "q", forum_id := some 1, ticker := none, timestamp := 0,
           author := "a", raw_text := "t", clean_text := "t", url := none,
           thread_url := none, content := none, metadata := [] }] = .ok (0, st'')) ∧
    upsert_one
        { post_id := some "k", forum_id := some 2, ticker := some "NEW", timestamp := 1,
          author := "b", raw_text := "t2", clean_text := "t2", url := none,
          thread_url := none, content := none, metadata := [] }
        [{ post_id := some "k", forum_id := some 2, ticker := some "OLD", timestamp := 0,
           author := "b", raw_text := "t1", clean_text := "t1", url := none,
           thread_url := none, content := none, metadata := [] }] =
      ([{ post_id := some "k", forum_id := some 2, ticker := some "OLD", timestamp := 0,
          author := "b", raw_text := "t1", clean_text := "t1", url := none,
          thread_url := none, content := none, metadata := [] }], false) :=
  ⟨upsert_posts_count_idempotent.1
      [{ post_id := some "q", forum_id := some 1, ticker := none, timestamp := 0,
         author := "a", raw_text := "t", clean_text := "t", url := none,
         thread_url := none, content := none, metadata := [] }] [] 1
      [{ post_id := some "q", forum_id := some 1, ticker := none, timestamp := 0,
         author := "a", raw_text := "t", clean_text := "t", url := none,
         thread_url := none, content := none, metadata := [] }]
      (by simp) rfl,
   upsert_posts_count_idempotent.2.1
      [{ post_id := some "q", forum_id := some 1, ticker := none, timestamp := 0,
         author := "a", raw_text := "t", clean_text := "t", url := none,
         thread_url := none, content := none, metadata := [] }] [] 1
      [{ post_id := some "q", forum_id := some 1, ticker := none, timestamp := 0,
         author := "a", raw_text := "t", clean_text := "t", url := none,
         thread_url := none, content := none, metadata := [] }] rfl,
   upsert_posts_count_idempotent.2.2
      { post_id := some "k", forum_id := some 2, ticker := some "NEW", timestamp := 1,
        author := "b", raw_text := "t2", clean_text := "t2", url := none,
        thread_url := none, content := none, metadata := [] }
      [{ post_id := some "k", forum_id := some 2, ticker := some "OLD", timestamp := 0,
         author := "b", raw_text := "t1", clean_text := "t1", url := none,
         thread_url := none, content := none, metadata := [] }]
      rfl (by decide)⟩

/-- C2 counterexample: a key-hitting post with a differing `ticker` is
NOT updated in place — the store comes back unchanged (the update branch
raises on the missing `content` attribute) — although the count behaviour
holds (0 is returned). -/
theorem upsert_posts_update_in_place_cex :
    upsert_posts
        [{ post_id := some "5", forum_id := some 3, ticker := some "NEW", timestamp := 9,
           author := "b", raw_text := "x", clean_text := "x", url := none,
           thread_url := none, content := none, metadata := [] }]
        [{ post_id := some "5", forum_id := some 3, ticker := some "OLD", timestamp := 0,
           author := "a", raw_text := "x", clean_text := "x", url := none,
           thread_url := none, content := none, metadata := [] }] =
      .ok (0,
        [{ post_id := some "5", forum_id := some 3, ticker := some "OLD", timestamp := 0,
           author := "a", raw_text := "x", clean_text := "x", url := none,
           thread_url := none, content := none, metadata := [] }]) :=
  rfl

/-- C8 counterexample: an upsert of a post whose key exists and whose
`raw_text` differs leaves the stored `raw_text` unchanged — the claimed
field-by-field compare-and-apply does not happen for forum posts. -/
theorem upsert_posts_changed_field_cex :
    upsert_posts
        [{ post_id := some "8", forum_id := some 6, ticker := some "TEL", timestamp := 2,
           author := "c", raw_text := "new", clean_text := "new", url := none,
           thread_url := none, content := none, metadata := [] }]
        [{ post_id := some "8", forum_id := some 6, ticker := some "TEL", timestamp := 1,
           author := "c", raw_text := "old", clean_text := "old", url := none,
           thread_url := none, content := none, metadata := [] }] =
      .ok (0,
        [{ post_id := some "8", forum_id := some 6, ticker := some "TEL", timestamp := 1,
           author := "c", raw_text := "old", clean_text := "old", url := none,
           thread_url := none, content := none, metadata := [] }]) :=
  rfl

/-- C8 (amended): the news upsert compares field by field and applies
exactly the carried fields (equal carried values leave the column with
the same value, uncarried keys leave it untouched); with a unique lookup
match the store row is replaced by the field-merged row and all other
rows are untouched.  The forum-post upsert, by contrast, never modifies
an existing row: its update branch reads the missing `content` attribute,
raises, and the post is skipped. -/
theorem upsert_field_update_behavior :
    (∀ (ex : NewsRow) (item : NewsItem),
        (update_news_fields ex item).1 =
          { ticker := item.ticker.getD ex.ticker
            source := item.source.getD ex.source
            category := item.category.getD ex.category
            headline := item.headline.getD ex.headline
            summary := item.summary.getD ex.summary
            body_html := item.body_html.getD ex.body_html
            link := item.link.getD ex.link
            published_at := item.published_at.getD ex.published_at
            importance := item.importance.getD ex.importance }) ∧
    (∀ (item : NewsItem) (t h : String) (pa : Nat) (pre rest : List NewsRow)
        (r : NewsRow),
        item.ticker = some t → item.headline = some h → item.published_at = some pa →
        pre.countP (news_match3 t h pa) = 0 → news_match3 t h pa r = true →
        rest.countP (news_match3 t h pa) = 0 →
        upsert_news_item item (pre ++ r :: rest) =
          ((update_news_fields r item).2,
            pre ++ (update_news_fields r item).1 :: rest)) ∧
    (∀ (p : PostRow) (store : List PostRow),
        p.content = none → store.any (fun r => key_match r p) = true →
        (upsert_one p store).1 = store) := by
  refine ⟨?_, ?_, ?_⟩
  · intro ex item
    simp [update_news_fields, upd_field_getD]
  · intro item t h pa pre rest r ht hh hpa hpre hr hrest
    obtain ⟨it, isrc, icat, ihl, isum, ibody, ilink, ipub, iimp⟩ := item
    have ht' : it = some t := ht
    have hh' : ihl = some h := hh
    have hpa' : ipub = some pa := hpa
    subst ht'; subst hh'; subst hpa'
    have hcount : (pre ++ r :: rest).countP (news_match3 t h pa) = 1 := by
      rw [List.countP_append, List.countP_cons, hpre, hrest, hr]
      simp
    have hstep : upsert_news_item
        ⟨some t, isrc, icat, some h, isum, ibody, ilink, some pa, iimp⟩
        (pre ++ r :: rest) =
        news_replace_first
          ⟨some t, isrc, icat, some h, isum, ibody, ilink, some pa, iimp⟩
          t h pa (pre ++ r :: rest) := by
      rw [upsert_news_item]
      dsimp only
      rw [hcount]
    rw [hstep]
    exact news_replace_first_app _ t h pa pre rest r hpre hr
  · intro p store hc hm
    rw [upsert_one_skip p store hc hm]

/-- Witness for `upsert_field_update_behavior`: a one-row store with a
matching incoming item, and a skipped post update. -/
theorem upsert_field_update_behavior_witness :
    upsert_news_item
        ⟨some "EQNR", some "openbb", none, some "H1", none, none, none, some 5, none⟩
        ([] ++ ({ ticker := "EQNR", source := "openbb", category := "news",
                  headline := "H1", summary := none, body_html := none, link := none,
                  published_at := 5, importance := none } : NewsRow) :: []) =
      ((update_news_fields
          { ticker := "EQNR", source := "openbb", category := "news", headline := "H1",
            summary := none, body_html := none, link := none, published_at := 5,
            importance := none }
          ⟨some "EQNR", some "openbb", none, some "H1", none, none, none, some 5,
            none⟩).2,
        [] ++ (update_news_fields
          { ticker := "EQNR", source := "openbb", category := "news", headline := "H1",
            summary := none, body_html := none, link := none, published_at := 5,
            importance := none }
          ⟨some "EQNR", some "openbb", none, some "H1", none, none, none, some 5,
            none⟩).1 :: []) :=
  upsert_field_update_behavior.2.1
    ⟨some "EQNR", some "openbb", none, some "H1", none, none, none, some 5, none⟩
    "EQNR" "H1" 5 [] []
    { ticker := "EQNR", source := "openbb", category := "news", headline := "H1",
      summary := none, body_html := none, link := none, published_at := 5,
      importance := none }
    rfl rfl rfl rfl (by decide) rfl

/-- C10: the post identity is unique table-wide, not merely per forum.  A
second post with the same external id in a different forum misses the
(post_id, forum_id) lookup, reaches the insert path (it is added to the
session and counted), and the commit is rejected by the UNIQUE constraint
on `post_id`; every store a successful non-empty upsert commits has
non-null, table-wide distinct post ids. -/
theorem post_id_global_uniqueness :
    (upsert_one
        { post_id := some "77", forum_id := some 2, ticker := some "NEW", timestamp := 1,
          author := "b", raw_text := "yy", clean_text := "yy", url := none,
          thread_url := none, content := none, metadata := [] }
        [{ post_id := some "77", forum_id := some 1, ticker := some "OLD", timestamp := 0,
           author := "a", raw_text := "xx", clean_text := "xx", url := none,
           thread_url := none, content := none, metadata := [] }] =
      ([{ post_id := some "77", forum_id := some 1, ticker := some "OLD", timestamp := 0,
          author := "a", raw_text := "xx", clean_text := "xx", url := none,
          thread_url := none, content := none, metadata := [] },
        { post_id := some "77", forum_id := some 2, ticker := some "NEW", timestamp := 1,
          author := "b", raw_text := "yy", clean_text := "yy", url := none,
          thread_url := none, content := none, metadata := [] }], true) ∧
     upsert_posts
        [{ post_id := some "77", forum_id := some 2, ticker := some "NEW", timestamp := 1,
           author := "b", raw_text := "yy", clean_text := "yy", url := none,
           thread_url := none, content := none, metadata := [] }]
        [{ post_id := some "77", forum_id := some 1, ticker := some "OLD", timestamp := 0,
           author := "a", raw_text := "xx", clean_text := "xx", url := none,
           thread_url := none, content := none, metadata := [] }] = .error ()) ∧
    (∀ (posts store : List PostRow) (n : Nat) (st' : List PostRow), posts ≠ [] →
        upsert_posts posts store = .ok (n, st') →
        st'.all (fun r => r.post_id.isSome) = true ∧
        (st'.map (fun r => r.post_id)).Nodup) := by
  refine ⟨⟨rfl, rfl⟩, ?_⟩
  intro posts store n st' hne hok
  cases posts with
  | nil => exact absurd rfl hne
  | cons p ps =>
    simp only [upsert_posts] at hok
    by_cases htab : posts_table_ok (upsert_loop (p :: ps) store).1 = true
    · rw [if_pos htab] at hok
      simp only [Except.ok.injEq, Prod.mk.injEq] at hok
      obtain ⟨-, h2⟩ := hok
      subst h2
      rw [posts_table_ok] at htab
      simp only [Bool.and_eq_true] at htab
      obtain ⟨h1, hnodup⟩ := htab
      constructor
      · apply List.all_eq_true.mpr
        intro r hr
        have := List.all_eq_true.mp h1 r hr
        simp only [Bool.and_eq_true] at this
        simpa using this.1
      · exact of_decide_eq_true hnodup
    · rw [if_neg htab] at hok
      exact Except.noConfusion hok

/-- Witness for `post_id_global_uniqueness`: a successful single-post
insert commits a store with a non-null, distinct post id. -/
theorem post_id_global_uniqueness_witness :
    ([{ post_id := some "9", forum_id := some 4, ticker := none, timestamp := 0,
        author := "w", raw_text := "abc", clean_text := "abc", url := none,
        thread_url := none, content := none, metadata := [] }] : List PostRow).all
      (fun r => r.post_id.isSome) = true ∧
    (([{ post_id := some "9", forum_id := some 4, ticker := none, timestamp := 0,
         author := "w", raw_text := "abc", clean_text := "abc", url := none,
         thread_url := none, content := none, metadata := [] }] : List PostRow).map
      (fun r => r.post_id)).Nodup :=
  post_id_global_uniqueness.2
    [{ post_id := some "9", forum_id := some 4, ticker := none, timestamp := 0,
       author := "w", raw_text := "abc", clean_text := "abc", url := none,
       thread_url := none, content := none, metadata := [] }] [] 1
    [{ post_id := some "9", forum_id := some 4, ticker := none, timestamp := 0,
       author := "w", raw_text := "abc", clean_text := "abc", url := none,
       thread_url := none, content := none, metadata := [] }]
    (by simp) rfl

/-- Helper: one thread-loop step preserves the conservation invariant
"flushed posts plus pending batch equal all accumulated posts". -/
theorem batch_inv_step (has_cb : Bool) (sp stt c : Nat) (st : BatchLoopState)
    (tp : List PostRow)
    (h : (st.flushes.map (fun f => f.posts)).flatten ++ st.batch_posts = st.all_posts) :
    ((process_thread has_cb sp stt c st tp).flushes.map (fun f => f.posts)).flatten ++
      (process_thread has_cb sp stt c st tp).batch_posts =
      (process_thread has_cb sp stt c st tp).all_posts := by
  simp only [process_thread]
  split
  · simp only [List.map_append, List.flatten_append, List.map_cons, List.map_nil,
      List.flatten_cons, List.flatten_nil, List.append_nil, List.append_assoc]
    rw [← List.append_assoc, h]
  · simp only []
    rw [← List.append_assoc, h]

/-- Helper: the whole loop satisfies the conservation invariant. -/
theorem scrape_loop_inv (has_cb : Bool) (sp stt c : Nat)
    (threads : List (List PostRow)) :
    ((scrape_loop has_cb sp stt c threads).flushes.map (fun f => f.posts)).flatten ++
      (scrape_loop has_cb sp stt c threads).batch_posts =
      (scrape_loop has_cb sp stt c threads).all_posts := by
  suffices H : ∀ st : BatchLoopState,
      (st.flushes.map (fun f => f.posts)).flatten ++ st.batch_posts = st.all_posts →
      ((threads.foldl (process_thread has_cb sp stt c) st).flushes.map
          (fun f => f.posts)).flatten ++
        (threads.foldl (process_thread has_cb sp stt c) st).batch_posts =
        (threads.foldl (process_thread has_cb sp stt c) st).all_posts by
    exact H ⟨[], 0, [], []⟩ rfl
  induction threads with
  | nil => intro st hst; exact hst
  | cons t ts ih =>
    intro st hst
    exact ih (process_thread has_cb sp stt c st t) (batch_inv_step has_cb sp stt c st t hst)

/-- C7 (amended): with a batch callback, after each processed thread the
batch is flushed and reset exactly when the pending post count reaches
`batch_size_posts` or the batch thread count reaches `batch_size_threads`
(never without a callback); a final flush stores exactly the non-empty
remainder; every accumulated post is flushed exactly once; 150 records in
two units of 120 and 30 yield one threshold flush and one final flush,
while an even 75/75 split yields a single threshold flush of all 150 and
no final flush. -/
theorem batch_flush_triggers :
    (∀ (sp stt c : Nat) (st : BatchLoopState) (tp : List PostRow),
        (process_thread true sp stt c st tp).flushes =
          st.flushes ++
            (if sp ≤ (st.batch_posts ++ filter_recent c tp).length ∨
                stt ≤ st.threads_in_batch + 1
             then [⟨st.batch_posts ++ filter_recent c tp, st.threads_in_batch + 1,
                    false⟩]
             else [])) ∧
    (∀ (sp stt c : Nat) (st : BatchLoopState) (tp : List PostRow),
        (process_thread false sp stt c st tp).flushes = st.flushes) ∧
    (∀ (sp stt c m : Nat) (threads : List (List PostRow)),
        scrape_forum_with_threads true sp stt c m threads =
          { scrape_loop true sp stt c (threads.take m) with
            flushes := (scrape_loop true sp stt c (threads.take m)).flushes ++
              (if (scrape_loop true sp stt c (threads.take m)).batch_posts.isEmpty
               then []
               else [⟨(scrape_loop true sp stt c (threads.take m)).batch_posts,
                      (scrape_loop true sp stt c (threads.take m)).threads_in_batch,
                      true⟩]) }) ∧
    (∀ (sp stt c m : Nat) (threads : List (List PostRow)),
        ((scrape_forum_with_threads true sp stt c m threads).flushes.map
            (fun f => f.posts)).flatten =
          (scrape_forum_with_threads true sp stt c m threads).all_posts) ∧
    ((scrape_forum_with_threads true 100 5 0 1000
        [List.replicate 120
          { post_id := some "p", forum_id := some 1, ticker := none, timestamp := 1,
            author := "a", raw_text := "r", clean_text := "r", url := none,
            thread_url := none, content := none, metadata := [] },
         List.replicate 30
          { post_id := some "p", forum_id := some 1, ticker := none, timestamp := 1,
            author := "a", raw_text := "r", clean_text := "r", url := none,
            thread_url := none, content := none, metadata := [] }]).flushes.map
      (fun f => (f.posts.length, f.threads, f.is_final)) = [(120, 1, false), (30, 1, true)]) := by
  refine ⟨?_, ?_, ?_, ?_, rfl⟩
  · intro sp stt c st tp
    simp only [process_thread]
    by_cases h1 : sp ≤ (st.batch_posts ++ filter_recent c tp).length <;>
      by_cases h2 : stt ≤ st.threads_in_batch + 1 <;>
      simp only [List.length_append] at h1 <;>
      simp [h1, h2]
  · intro sp stt c st tp
    simp [process_thread]
  · intro sp stt c m threads
    simp only [scrape_forum_with_threads]
    by_cases he : (scrape_loop true sp stt c (threads.take m)).batch_posts.isEmpty
    · rw [if_neg (by simp [he]), he]
      simp
    · rw [if_pos (by simp [he])]
      simp [he]
  · intro sp stt c m threads
    have hinv := scrape_loop_inv true sp stt c (threads.take m)
    simp only [scrape_forum_with_threads]
    by_cases he : (scrape_loop true sp stt c (threads.take m)).batch_posts.isEmpty
    · rw [if_neg (by simp [he])]
      have hb : (scrape_loop true sp stt c (threads.take m)).batch_posts = [] :=
        List.isEmpty_iff.mp he
      rw [hb, List.append_nil] at hinv
      exact hinv
    · rw [if_pos (by simp [he])]
      simp only [List.map_append, List.flatten_append, List.map_cons, List.map_nil,
        List.flatten_cons, List.flatten_nil, List.append_nil]
      exact hinv

/-- C7 counterexample: with `batchSizePosts = 100` and 150 records split
evenly over two logical units, the single threshold flush takes all 150
posts and there is no final flush — not "one threshold flush and one
final flush for the remainder" as claimed. -/
theorem batch_flush_even_split_cex :
    (scrape_forum_with_threads true 100 5 0 1000
        [List.replicate 75
          { post_id := some "p", forum_id := some 1, ticker := none, timestamp := 1,
            author := "a", raw_text := "r", clean_text := "r", url := none,
            thread_url := none, content := none, metadata := [] },
         List.replicate 75
          { post_id := some "p", forum_id := some 1, ticker := none, timestamp := 1,
            author := "a", raw_text := "r", clean_text := "r", url := none,
            thread_url := none, content := none, metadata := [] }]).flushes.map
      (fun f => (f.posts.length, f.is_final)) = [(150, false)] :=
  rfl

/-- C6 counterexample: the body scan matches uppercase tokens of length
2-4, not 2-6 as claimed.  On body "THE AND ABCDE" the claimed 2-6 scan
resolves "ABCDE", but the code's scan yields no candidate and the record
is skipped. -/
theorem placera_five_letter_token_cex :
    extract_tickers "THE AND ABCDE" = [] ∧
    claim_ticker_scan_2_6 "THE AND ABCDE" = ["ABCDE"] ∧
    placera_extract_post (fun _ => none) 0
      ⟨some "Bob", none, none, none, some "THE AND ABCDE", []⟩ = none := by
  refine ⟨rfl, rfl, rfl⟩

end NSSM
